import Mathlib

/-!
Verification development for the tutoring backend's memory subsystem and
routing classifier (src/api/services/memory.py and src/api/agents/supervisor.py).

The Python code is shallowly embedded: the Supabase-backed record table is a
`Store` (a list of records plus failure flags that model a store call raising),
wall-clock time is an explicit `Nat` parameter, Python float arithmetic is
modelled over `ℚ`, and fallible Python code (uncaught exceptions) is modelled
with `Except String`.  A record's serialized-JSON `context` column is modelled
by `ContextField`: either a parsed attribute bag `Ctx` or `malformed`
(unparsable JSON, on which `json.loads` raises).  SQL `ilike "%x%"` is modelled
as case-insensitive substring containment (wildcard metacharacters are not
modelled; no theorem below depends on them).
-/

/-- Python `s[:n]` on text: the first `n` characters. -/
def strTake (s : String) (n : Nat) : String := String.mk (s.data.take n)

/-- Python `s.lower()`: character-wise lower casing. -/
def strLower (s : String) : String := String.mk (s.data.map Char.toLower)

/-- Python `needle in hay`: substring containment. -/
def strContainsSub (hay needle : String) : Bool := decide (needle.data <:+: hay.data)

/-- SQL `hay ilike %needle%`: case-insensitive substring containment. -/
def ilikeContains (hay needle : String) : Bool := strContainsSub (strLower hay) (strLower needle)

/-- Python `min` on two floats (first argument wins ties), over `ℚ`. -/
def pymin (a b : ℚ) : ℚ := if b < a then b else a

/-- A JSON-serializable value stored in a working-memory entry or preference. -/
inductive Val where
  | vbool : Bool → Val
  | vstr : String → Val
  | vnat : Nat → Val
deriving DecidableEq

/-- The parsed attribute bag stored in a record's `context` column.  Each field
is `Option`al: `none` models an absent JSON key (so Python's `dict.get` with a
default is `Option.getD`).  The union of the kind-specific schemas of
memory.py lives in one bag, as in the source's schemaless JSON column. -/
structure Ctx where
  category : Option String := none
  confidence : Option ℚ := none
  source_session : Option String := none
  updated_at : Option Nat := none
  procedure_type : Option String := none
  success_rate : Option ℚ := none
  use_count : Option Nat := none
  topic : Option String := none
  style : Option String := none
  feedback : Option String := none
  value : Option Val := none
  ttl_minutes : Option Nat := none
deriving DecidableEq

/-- The raw `context` column: either JSON that parses to a `Ctx`, or unparsable
text (a legacy/corrupt record). -/
inductive ContextField where
  | json : Ctx → ContextField
  | malformed : ContextField
deriving DecidableEq

/-- Python `json.loads` on a `context` column: raises on unparsable JSON. -/
def jsonLoads : ContextField → Except String Ctx
  | .json c => .ok c
  | .malformed => .error "JSONDecodeError"

/-- One row of the `memories` table (memory.py's record layout). -/
structure MemoryRecord where
  id : String
  user_id : String
  memory_type : String
  session_id : Option String := none
  content : String
  context : ContextField
  importance : String
  recorded_at : Nat
  last_accessed : Nat
  access_count : Nat := 0
  decay_factor : ℚ := 1
deriving DecidableEq

/-- One row of the `messages` table (used by `get_conversation_summary`). -/
structure Msg where
  session_id : String
  role : String
  content : String
  created_at : Nat
deriving DecidableEq

/-- The external Supabase store: the `memories` and `messages` tables, plus
flags modelling a select/delete call raising (network failure).  A flag set to
`true` means the corresponding store call throws. -/
structure Store where
  records : List MemoryRecord := []
  messages : List Msg := []
  semanticSelectFails : Bool := false
  episodicSelectFails : Bool := false
  proceduralSelectFails : Bool := false
  workingSelectFails : Bool := false
  messagesSelectFails : Bool := false
  deleteFails : Bool := false
deriving DecidableEq

/-- A store with no rows and no failing calls. -/
def emptyStore : Store := {}

/-! ## Semantic memory (`SemanticMemory` in memory.py) -/

/-- The deterministic id `sha256(f"{user}:semantic:{category}:{fact[:50]}")[:16]`
of a freshly inserted semantic record.  The hash is modelled by its (injective)
input string. -/
def semanticId (user category fact : String) : String :=
  user ++ ":semantic:" ++ category ++ ":" ++ strTake fact 50

/-- The near-duplicate check of `store_fact`: same user, kind `semantic`, and
`content ilike %fact[:30]%`. -/
def semanticMatches (user fact : String) (r : MemoryRecord) : Bool :=
  decide (r.user_id = user) && decide (r.memory_type = "semantic")
    && ilikeContains r.content (strTake fact 30)

/-- The context written by `store_fact`'s update (dedup) branch:
`{category, confidence: min(confidence+0.1, 1.0), source_session, updated_at}`.
Note that `confidence` here is the *current call's* argument. -/
def semanticUpdatedCtx (category : String) (confidence : ℚ)
    (source_session : Option String) (now : Nat) : Ctx :=
  { category := some category,
    confidence := some (pymin (confidence + 1/10) 1),
    source_session := source_session,
    updated_at := some now }

/-- `SemanticMemory.store_fact`: if some semantic record's content contains the
fact's leading 30 characters, patch that record's `context` and `last_accessed`
and return its id; otherwise insert a new record under the deterministic id.
The insert's own try/except (store write failure) is not modelled: the claims
below concern the select/update/dedup logic. -/
def store_fact (user category fact : String) (confidence : ℚ)
    (source_session : Option String) (now : Nat) (s : Store) : String × Store :=
  match s.records.filter (semanticMatches user fact) with
  | e :: _ =>
    (e.id, { s with records := s.records.map (fun r =>
        if r.id = e.id then
          { r with context := .json (semanticUpdatedCtx category confidence source_session now),
                   last_accessed := now }
        else r) })
  | [] =>
    let memory_id := semanticId user category fact
    (memory_id, { s with records := s.records ++ [{
        id := memory_id, user_id := user, memory_type := "semantic",
        session_id := none, content := fact,
        context := .json { category := some category, confidence := some confidence,
                           source_session := source_session },
        importance := "high", recorded_at := now, last_accessed := now,
        access_count := 0, decay_factor := 1 }] })

/-- The semantic records of `user` whose content contains `fact`'s leading 30
characters (the dedup equivalence class of `fact`). -/
def matchingSemantic (user fact : String) (s : Store) : List MemoryRecord :=
  s.records.filter (semanticMatches user fact)

/-- The stored confidence of the first record in `fact`'s dedup class. -/
def firstConfidence (user fact : String) (s : Store) : Option ℚ :=
  match matchingSemantic user fact s with
  | r :: _ =>
    match r.context with
    | .json c => c.confidence
    | .malformed => none
  | [] => none

/-! ## Helper lemmas on the string model -/

theorem lowerTakeComm (s : String) (n : Nat) :
    (strLower (strTake s n)).data = ((strLower s).data).take n := by
  simp only [strLower, strTake]
  exact List.map_take Char.toLower s.data n

/-- A string always ilike-matches its own leading `n` characters (hence a fact
stored as `content` is found again by the `%fact[:30]%` dedup probe). -/
theorem ilikeTakeSelf (s : String) (n : Nat) : ilikeContains s (strTake s n) = true := by
  have h : (strLower (strTake s n)).data <:+: (strLower s).data := by
    rw [lowerTakeComm]
    exact List.IsPrefix.isInfix <| List.take_prefix n _
  simpa [ilikeContains, strContainsSub] using h

/-! ## Episodic memory (`EpisodicMemory` in memory.py) -/

/-- Descending creation-time order on memory records (ties are resolved
stably, modelling the store's `order("recorded_at", desc=True)`). -/
def epOrder (a b : MemoryRecord) : Prop := b.recorded_at ≤ a.recorded_at

instance : DecidableRel epOrder := fun a b =>
  inferInstanceAs (Decidable (b.recorded_at ≤ a.recorded_at))

instance : IsTotal MemoryRecord epOrder :=
  ⟨fun a b => (Nat.le_total b.recorded_at a.recorded_at).elim Or.inl Or.inr⟩

instance : IsTrans MemoryRecord epOrder :=
  ⟨fun _ _ _ h₁ h₂ => Nat.le_trans h₂ h₁⟩

/-- The episodic rows of `user`, with the optional time-window filter of
`recall_episodes` applied.  `if time_range_days:` in Python is falsy both for
`None` and for `0`, hence the inner `d ≠ 0` test. -/
def episodicFiltered (user : String) (time_range_days : Option Nat) (now : Nat)
    (s : Store) : List MemoryRecord :=
  let base := s.records.filter (fun r =>
    decide (r.user_id = user) && decide (r.memory_type = "episodic"))
  match time_range_days with
  | some d => if d ≠ 0 then base.filter (fun r => decide (now - d ≤ r.recorded_at)) else base
  | none => base

/-- `EpisodicMemory.recall_episodes`: filter by user and kind, optionally by the
cutoff `now - time_range_days`, order descending by `recorded_at`, truncate to
`limit`.  The `query` argument is accepted and ignored, as in the source.  The
best-effort `_update_access` side effect (wrapped in `try/except: pass` in the
source) does not affect the returned rows and is not modelled. -/
def recall_episodes (user : String) (query : String) (limit : Nat)
    (time_range_days : Option Nat) (now : Nat) (s : Store) :
    Except String (List MemoryRecord) :=
  if s.episodicSelectFails then .error "episodic select failed" else
  let _ := query
  .ok ((List.insertionSort epOrder (episodicFiltered user time_range_days now s)).take limit)

/-! ## Procedural memory (`ProceduralMemory` in memory.py) -/

/-- The deterministic id
`sha256(f"{user}:procedural:{ptype}:{description[:30]}")[:16]` of a freshly
inserted procedural record, modelled by its (injective) input string. -/
def procId (user ptype description : String) : String :=
  user ++ ":procedural:" ++ ptype ++ ":" ++ strTake description 30

/-- The near-duplicate check of `store_procedure`: same user, kind
`procedural`, and `content ilike %description[:20]%`. -/
def procMatches (user description : String) (r : MemoryRecord) : Bool :=
  decide (r.user_id = user) && decide (r.memory_type = "procedural")
    && ilikeContains r.content (strTake description 20)

/-- Python's `{base, **extra}` dict spread on two context bags: keys present in
`extra` override `base`. -/
def ctxOverride (base extra : Ctx) : Ctx where
  category := match extra.category with | some v => some v | none => base.category
  confidence := match extra.confidence with | some v => some v | none => base.confidence
  source_session := match extra.source_session with | some v => some v | none => base.source_session
  updated_at := match extra.updated_at with | some v => some v | none => base.updated_at
  procedure_type := match extra.procedure_type with | some v => some v | none => base.procedure_type
  success_rate := match extra.success_rate with | some v => some v | none => base.success_rate
  use_count := match extra.use_count with | some v => some v | none => base.use_count
  topic := match extra.topic with | some v => some v | none => base.topic
  style := match extra.style with | some v => some v | none => base.style
  feedback := match extra.feedback with | some v => some v | none => base.feedback
  value := match extra.value with | some v => some v | none => base.value
  ttl_minutes := match extra.ttl_minutes with | some v => some v | none => base.ttl_minutes

/-- `ProceduralMemory.store_procedure`: on a near-duplicate, blend the success
rate as `0.7*new + 0.3*old` (old defaulting to `0.5`), bump `use_count` by one
(defaulting the old count to `0`), patch `context`/`last_accessed`, and return
the existing id; otherwise insert a fresh record with `use_count = 1`.  The
source's `json.loads` on the existing record's context is unprotected, so the
dedup branch propagates a parse error. -/
def store_procedure (user ptype description : String) (success_rate : ℚ)
    (ctx : Ctx) (now : Nat) (s : Store) : Except String (String × Store) :=
  match s.records.filter (procMatches user description) with
  | e :: _ =>
    match jsonLoads e.context with
    | .error err => .error err
    | .ok old =>
      let new_rate := (7:ℚ)/10 * success_rate + 3/10 * (old.success_rate.getD (1/2))
      let newCtx := { old with success_rate := some new_rate,
                               use_count := some (old.use_count.getD 0 + 1) }
      .ok (e.id, { s with records := s.records.map (fun r =>
          if r.id = e.id then { r with context := .json newCtx, last_accessed := now }
          else r) })
  | [] =>
    let memory_id := procId user ptype description
    .ok (memory_id, { s with records := s.records ++ [{
        id := memory_id, user_id := user, memory_type := "procedural",
        session_id := none, content := description,
        context := .json (ctxOverride
          { procedure_type := some ptype, success_rate := some success_rate,
            use_count := some 1 } ctx),
        importance := if (7:ℚ)/10 < success_rate then "high" else "medium",
        recorded_at := now, last_accessed := now,
        access_count := 0, decay_factor := 1 }] })

/-- The strategy description `f"For {topic}: {explanation_style}"` used by
`record_explanation_outcome`. -/
def outcomeDesc (topic style : String) : String := "For " ++ topic ++ ": " ++ style

/-- `ProceduralMemory.record_explanation_outcome`: binarize the outcome and
store it as an `explanation` procedure named `For {topic}: {style}`. -/
def record_explanation_outcome (user topic explanation_style : String)
    (was_successful : Bool) (feedback : Option String) (now : Nat) (s : Store) :
    Except String (String × Store) :=
  store_procedure user "explanation" (outcomeDesc topic explanation_style)
    (if was_successful then 1 else 0)
    { topic := some topic, style := some explanation_style, feedback := feedback }
    now s

/-- One strategy row as returned by `get_effective_strategies`. -/
structure Strategy where
  description : String
  success_rate : ℚ
  use_count : Nat
  type : String
deriving DecidableEq

/-- The ranking key `success_rate * min(use_count, 10)`. -/
def strategyScore (x : Strategy) : ℚ := x.success_rate * (min x.use_count 10 : Nat)

/-- Descending ranking-key order on strategies (Python's stable
`sort(key=..., reverse=True)`). -/
def strategyOrder (a b : Strategy) : Prop := strategyScore b ≤ strategyScore a

instance : DecidableRel strategyOrder := fun a b =>
  inferInstanceAs (Decidable (strategyScore b ≤ strategyScore a))

instance : IsTotal Strategy strategyOrder :=
  ⟨fun a b => (le_total (strategyScore b) (strategyScore a)).elim Or.inl Or.inr⟩

instance : IsTrans Strategy strategyOrder :=
  ⟨fun _ _ _ h₁ h₂ => le_trans h₂ h₁⟩

/-- The filter of `get_effective_strategies`: keep a parsed context whose
success rate (defaulting to 0) reaches `min_success_rate` and whose
`procedure_type` matches `context_type` when one is given. -/
def keepStrategy (context_type : Option String) (min_success_rate : ℚ) (c : Ctx) : Bool :=
  decide (min_success_rate ≤ c.success_rate.getD 0)
    && (decide (context_type = none) || decide (c.procedure_type = context_type))

/-- The strategy row built from a kept record. -/
def strategyOfCtx (content : String) (c : Ctx) : Strategy :=
  { description := content, success_rate := c.success_rate.getD 0,
    use_count := c.use_count.getD 0, type := c.procedure_type.getD "general" }

/-- The per-record loop of `get_effective_strategies`; `json.loads` is
unprotected, so the first malformed context aborts the whole aggregation. -/
def strategiesLoop (context_type : Option String) (min_success_rate : ℚ) :
    List MemoryRecord → List Strategy → Except String (List Strategy)
  | [], acc => .ok acc
  | r :: rest, acc =>
    match jsonLoads r.context with
    | .error e => .error e
    | .ok c =>
      strategiesLoop context_type min_success_rate rest
        (if keepStrategy context_type min_success_rate c
         then acc ++ [strategyOfCtx r.content c] else acc)

/-- The procedural rows of `user`. -/
def proceduralRows (user : String) (s : Store) : List MemoryRecord :=
  s.records.filter (fun r =>
    decide (r.user_id = user) && decide (r.memory_type = "procedural"))

/-- `ProceduralMemory.get_effective_strategies`: fetch the user's procedural
rows, keep those passing `keepStrategy`, sort descending by
`success_rate * min(use_count, 10)`, return the first 10. -/
def get_effective_strategies (user : String) (context_type : Option String)
    (min_success_rate : ℚ) (s : Store) : Except String (List Strategy) :=
  if s.proceduralSelectFails then .error "procedural select failed" else
  match strategiesLoop context_type min_success_rate (proceduralRows user s) [] with
  | .error e => .error e
  | .ok strategies => .ok ((List.insertionSort strategyOrder strategies).take 10)

/-- The pure (error-free) value of the strategies loop, used to state what the
loop computes on well-formed rows. -/
def strategiesOf (context_type : Option String) (min_success_rate : ℚ)
    (l : List MemoryRecord) : List Strategy :=
  l.filterMap (fun r =>
    match r.context with
    | .malformed => none
    | .json c =>
      if keepStrategy context_type min_success_rate c
      then some (strategyOfCtx r.content c) else none)

/-! ## Semantic profile aggregation (`get_user_profile` in memory.py) -/

/-- The aggregated user profile.  Python dicts are modelled as association
lists with insert-or-overwrite semantics. -/
structure Profile where
  learning_style : List String := []
  proficiencies : List (String × String) := []
  interests : List String := []
  challenges : List String := []
  preferences : List (String × Val) := []
  raw_facts : List String := []
deriving DecidableEq

/-- Python dict assignment `d[k] = v`: overwrite in place or append. -/
def upsertAssoc {α : Type} (k : String) (v : α) : List (String × α) → List (String × α)
  | [] => [(k, v)]
  | (k', v') :: rest => if k' = k then (k, v) :: rest else (k', v') :: upsertAssoc k v rest

/-- Python `"a:b".split(":")` on characters: split on every colon. -/
def splitColon (l : List Char) : List (List Char) :=
  match l with
  | [] => [[]]
  | c :: rest =>
    let r := splitColon rest
    if c = ':' then [] :: r
    else match r with
      | h :: t => (c :: h) :: t
      | [] => [[c]]

/-- Python `str.strip()`: drop leading and trailing whitespace. -/
def stripChars (l : List Char) : List Char :=
  ((l.dropWhile Char.isWhitespace).reverse.dropWhile Char.isWhitespace).reverse

/-- How `get_user_profile` buckets one well-formed semantic record into the
profile, by the `category` stored in its context (default `general`). -/
def bucketFact (p : Profile) (r : MemoryRecord) (c : Ctx) : Profile :=
  let category := c.category.getD "general"
  if category = "learning_style" then
    { p with learning_style := p.learning_style ++ [r.content] }
  else if category = "proficiency" then
    match splitColon r.content.data with
    | [a, b] =>
      { p with proficiencies :=
          upsertAssoc (String.mk (stripChars a)) (String.mk (stripChars b)) p.proficiencies }
    | _ => p
  else if category = "interest" then
    { p with interests := p.interests ++ [r.content] }
  else if category = "challenge" then
    { p with challenges := p.challenges ++ [r.content] }
  else if category = "preference" then
    { p with preferences := upsertAssoc r.content (c.value.getD (Val.vbool true)) p.preferences }
  else
    { p with raw_facts := p.raw_facts ++ [r.content] }

/-- The per-record loop of `get_user_profile`; `json.loads` is unprotected in
the source, so the first malformed context aborts the aggregation. -/
def profileLoop : List MemoryRecord → Profile → Except String Profile
  | [], p => .ok p
  | r :: rest, p =>
    match jsonLoads r.context with
    | .error e => .error e
    | .ok c => profileLoop rest (bucketFact p r c)

/-- The semantic rows of `user`. -/
def semanticRows (user : String) (s : Store) : List MemoryRecord :=
  s.records.filter (fun r =>
    decide (r.user_id = user) && decide (r.memory_type = "semantic"))

/-- `SemanticMemory.get_user_profile`: fetch all semantic rows of the user and
bucket each by category. -/
def get_user_profile (user : String) (s : Store) : Except String Profile :=
  if s.semanticSelectFails then .error "semantic select failed" else
  profileLoop (semanticRows user s) {}

/-! ## Working memory (`WorkingMemory` in memory.py) -/

/-- One entry of the in-process working-memory cache (`self._cache`):
a value with an absolute expiry timestamp. -/
structure CacheEntry where
  key : String
  value : Val
  expires : Nat
deriving DecidableEq

/-- Python `key in self._cache` / `self._cache[key]`: the cache is a dict,
so keys are unique and lookup finds the entry. -/
def cacheLookup (cache : List CacheEntry) (key : String) : Option CacheEntry :=
  cache.find? (fun e => decide (e.key = key))

/-- Python `del self._cache[key]`. -/
def cacheErase (cache : List CacheEntry) (key : String) : List CacheEntry :=
  cache.filter (fun e => decide (e.key ≠ key))

/-- The persisted working-memory record id `f"wm:{session_id}:{key}"`. -/
def wmId (session key : String) : String := "wm:" ++ session ++ ":" ++ key

/-- The fall-through store read of `get_from_context`: fetch the persisted row
by id and return its context's `value` key (absent row or absent key gives
`none`); the stored `ttl_minutes` is not consulted. -/
def wmFetch (session key : String) (cache' : List CacheEntry) (s : Store) :
    Except String (Option Val × List CacheEntry) :=
  if s.workingSelectFails then .error "working select failed" else
  match s.records.filter (fun r => decide (r.id = wmId session key)) with
  | r :: _ =>
    match jsonLoads r.context with
    | .error e => .error e
    | .ok c => .ok (c.value, cache')
  | [] => .ok (none, cache')

/-- `WorkingMemory.get_from_context`: cache hit with `expires > now` returns
the cached value; cache hit past expiry evicts the entry and falls through to
the store; cache miss falls through directly. -/
def get_from_context (session key : String) (now : Nat)
    (cache : List CacheEntry) (s : Store) :
    Except String (Option Val × List CacheEntry) :=
  match cacheLookup cache key with
  | some e =>
    if now < e.expires then .ok (some e.value, cache)
    else wmFetch session key (cacheErase cache key) s
  | none => wmFetch session key cache s

/-- Descending creation-time order on chat messages. -/
def msgOrder (a b : Msg) : Prop := b.created_at ≤ a.created_at

instance : DecidableRel msgOrder := fun a b =>
  inferInstanceAs (Decidable (b.created_at ≤ a.created_at))

instance : IsTotal Msg msgOrder :=
  ⟨fun a b => (Nat.le_total b.created_at a.created_at).elim Or.inl Or.inr⟩

instance : IsTrans Msg msgOrder :=
  ⟨fun _ _ _ h₁ h₂ => Nat.le_trans h₂ h₁⟩

/-- One `"Role: text"` line of the conversation summary, with the message body
truncated to 200 characters. -/
def formatMsg (m : Msg) : String :=
  (if m.role = "user" then "User" else "Assistant") ++ ": " ++
    (if 200 < m.content.data.length then strTake m.content 200 ++ "..." else m.content)

/-- `WorkingMemory.get_conversation_summary`: last 10 messages of the session
newest-first, reversed for display, formatted one per line; a fixed sentinel
when the session has no messages. -/
def get_conversation_summary (session : String) (s : Store) : Except String String :=
  if s.messagesSelectFails then .error "messages select failed" else
  let msgs := (List.insertionSort msgOrder
      (s.messages.filter (fun m => decide (m.session_id = session)))).take 10
  if msgs.isEmpty then .ok "No previous context in this conversation."
  else .ok (String.intercalate "\n" ((msgs.reverse).map formatMsg))

/-- `WorkingMemory.clear_session`: clear the in-process cache and delete the
persisted rows with this `session_id` *and* kind `working`; the delete is
wrapped in `try/except: pass`, so a failing delete leaves the store unchanged
and still returns normally (modelled by `deleteFails`). -/
def clear_session (session : String) (_cache : List CacheEntry) (s : Store) :
    List CacheEntry × Store :=
  ([], if s.deleteFails then s
       else { s with records := s.records.filter (fun r =>
                decide (¬ (r.session_id = some session ∧ r.memory_type = "working"))) })

/-! ## Routing classifier (`supervisor_node` in supervisor.py) -/

/-- The document/RAG pattern table of `supervisor_node`. -/
def ragPatterns : List String :=
  ["my document", "the document", "uploaded file", "uploaded document",
   "the textbook", "my textbook", "this pdf", "the pdf", "my file",
   "from the document", "in the document", "according to the document",
   "based on the document", "what does the document say", "the file says"]

/-- The visual pattern table of `supervisor_node`. -/
def visualPatterns : List String :=
  ["show me", "draw", "diagram", "image", "picture", "visualize",
   "visual", "illustration", "chart", "graph", "sketch", "figure",
   "can you show", "create an image", "make a diagram", "generate image"]

/-- The presentation pattern table of `supervisor_node`. -/
def presentationPatterns : List String :=
  ["presentation", "slides", "slide deck", "powerpoint", "ppt",
   "create slides", "make slides", "make a presentation",
   "create a presentation", "slideshow"]

/-- The reverse-teaching (feynman) pattern table of `supervisor_node`
(`\x27` is the ASCII apostrophe). -/
def feynmanPatterns : List String :=
  ["let me explain", "i\x27ll explain", "i will explain", "i want to explain",
   "let me teach", "i\x27ll teach", "i understand it as", "my understanding is",
   "here\x27s how i see it", "in my words", "can i explain", "test my understanding"]

/-- The debate (advocate) pattern table of `supervisor_node`. -/
def advocatePatterns : List String :=
  ["debate", "argue", "devil\x27s advocate", "counter argument", "play devil",
   "challenge my", "disagree with", "opposing view", "other side",
   "what\x27s wrong with", "critique", "critical thinking"]

/-- True when some pattern of the table occurs in the (already lowered)
message text. -/
def matchesAny (patterns : List String) (m : String) : Bool :=
  patterns.any (fun p => strContainsSub m p)

/-- The pattern-based routing of `supervisor_node`: lower-case the message,
then first match wins in the fixed order rag → presentation → visual →
feynman → advocate, with default `tutor`.  (The source expresses this as a
sequence of loops each guarded by `agent_name == "tutor"`, which is the same
chain.) -/
def supervisorRoute (message : String) : String :=
  let m := strLower message
  if matchesAny ragPatterns m then "rag"
  else if matchesAny presentationPatterns m then "presentation"
  else if matchesAny visualPatterns m then "visual"
  else if matchesAny feynmanPatterns m then "feynman"
  else if matchesAny advocatePatterns m then "advocate"
  else "tutor"

/-! ## Memory manager (`MemoryManager.build_context_for_query` in memory.py) -/

/-- One entry of the bundle's `relevant_history` list:
`{content, recorded_at, context: json.loads(ep["context"])}`. -/
structure HistEntry where
  content : String
  recorded_at : Nat
  context : Ctx
deriving DecidableEq

/-- The context bundle assembled by `build_context_for_query`.  A facet whose
`include_*` flag was false is `none` (the source omits the key). -/
structure ContextBundle where
  query : String
  recorded_at : Nat
  session_id : String
  user_profile : Option Profile
  relevant_history : Option (List HistEntry)
  effective_strategies : Option (List Strategy)
  current_topic : Option Val
  conversation_summary : String
deriving DecidableEq

/-- The history-building comprehension of `build_context_for_query`;
`json.loads` on each episode's context is unprotected. -/
def historyLoop : List MemoryRecord → Except String (List HistEntry)
  | [] => .ok []
  | r :: rest =>
    match jsonLoads r.context with
    | .error e => .error e
    | .ok c =>
      match historyLoop rest with
      | .error e => .error e
      | .ok t => .ok ({ content := r.content, recorded_at := r.recorded_at,
                        context := c } :: t)

/-- `MemoryManager.build_context_for_query`: sequentially fetch profile,
history (≤ `max_episodes`), strategies (truncated to 5), current topic and
conversation summary, and assemble the bundle.  None of the sub-fetches is
wrapped in try/except in the source, so the first store call or `json.loads`
that raises propagates out of the method; this embedding mirrors that with
sequential `Except` plumbing.  The working-memory cache of the manager's
`WorkingMemory` is passed explicitly (its possible eviction during the topic
read does not affect the returned bundle). -/
def build_context_for_query (user session query : String)
    (include_profile include_history include_strategies : Bool)
    (max_episodes : Nat) (now : Nat) (cache : List CacheEntry) (s : Store) :
    Except String ContextBundle :=
  match (if include_profile
         then Except.map some (get_user_profile user s)
         else .ok none) with
  | .error e => .error e
  | .ok user_profile =>
    match (if include_history
           then match recall_episodes user query max_episodes none now s with
                | .error e => (Except.error e : Except String (Option (List HistEntry)))
                | .ok eps => Except.map some (historyLoop eps)
           else .ok none) with
    | .error e => .error e
    | .ok relevant_history =>
      match (if include_strategies
             then Except.map (fun l => some (List.take 5 l))
                    (get_effective_strategies user none ((3:ℚ)/5) s)
             else .ok none) with
      | .error e => .error e
      | .ok effective_strategies =>
        match get_from_context session "current_topic" now cache s with
        | .error e => .error e
        | .ok (current_topic, _) =>
          match get_conversation_summary session s with
          | .error e => .error e
          | .ok summary =>
            .ok { query := query, recorded_at := now, session_id := session,
                  user_profile := user_profile,
                  relevant_history := relevant_history,
                  effective_strategies := effective_strategies,
                  current_topic := current_topic,
                  conversation_summary := summary }

/-! ## Claim C2 — semantic dedup confidence -/

/-- C2 (corrected): calling `store_fact` twice with the same category and fact
text, starting from an empty store, leaves exactly one matching semantic
record, the second call returns the first call's id, and the stored confidence
after the second call is `min(c₂ + 0.1, 1.0)` where `c₂` is the *second call's*
confidence argument — not `min(old + 0.1, 1.0)` over the stored confidence, as
the claim states.  With the default `0.8` on both calls the two formulas agree
and the stored value is `0.9`. -/
theorem C2_dedup_confidence :
    (∀ (user category fact : String) (c₁ c₂ : ℚ) (ss₁ ss₂ : Option String) (t₁ t₂ : Nat),
      (matchingSemantic user fact
          (store_fact user category fact c₂ ss₂ t₂
            ((store_fact user category fact c₁ ss₁ t₁ emptyStore).2)).2).length = 1 ∧
      firstConfidence user fact
          (store_fact user category fact c₂ ss₂ t₂
            ((store_fact user category fact c₁ ss₁ t₁ emptyStore).2)).2
        = some (pymin (c₂ + 1/10) 1) ∧
      (store_fact user category fact c₂ ss₂ t₂
          ((store_fact user category fact c₁ ss₁ t₁ emptyStore).2)).1
        = (store_fact user category fact c₁ ss₁ t₁ emptyStore).1) ∧
    pymin ((4:ℚ)/5 + 1/10) 1 = 9/10 := by
  constructor
  · intro user category fact c₁ c₂ ss₁ ss₂ t₁ t₂
    refine ⟨?_, ?_, ?_⟩ <;>
      simp [store_fact, matchingSemantic, semanticMatches, ilikeTakeSelf, emptyStore,
            firstConfidence, semanticUpdatedCtx]
  · norm_num [pymin]

/-- C2 counterexample: store the fact with confidence `0.8`, store it again
with confidence `0.5`.  The stored confidence becomes `min(0.5+0.1, 1) = 0.6`,
not `min(old+0.1, 1) = min(0.8+0.1, 1) = 0.9` as the claim predicts. -/
theorem C2_counterexample :
    firstConfidence "u" "likes cats"
        (store_fact "u" "preference" "likes cats" (1/2) none 1
          ((store_fact "u" "preference" "likes cats" (4/5) none 0 emptyStore).2)).2
      = some ((3:ℚ)/5) ∧
    some ((3:ℚ)/5) ≠ some (pymin ((4:ℚ)/5 + 1/10) 1) := by
  constructor
  · have h : firstConfidence "u" "likes cats"
        (store_fact "u" "preference" "likes cats" (1/2) none 1
          ((store_fact "u" "preference" "likes cats" (4/5) none 0 emptyStore).2)).2
        = some (pymin ((1:ℚ)/2 + 1/10) 1) := by
      simp [store_fact, matchingSemantic, semanticMatches, ilikeTakeSelf, emptyStore,
            firstConfidence, semanticUpdatedCtx]
    rw [h]
    norm_num [pymin]
  · norm_num [pymin]

/-! ## Claim C10 — the dedup path is a two-field patch -/

/-- C10: on the dedup path of `store_fact` (a record matches the fact's
leading prefix), only `context` and `last_accessed` of the matched record are
patched: every record keeps its `id`, `content`, `importance`, `recorded_at`,
`access_count` (and `user_id`, `memory_type`, `session_id`, `decay_factor`),
and the returned id is the pre-existing record's id — in particular it differs
from the freshly computed hash whenever the existing id does. -/
theorem C10_dedup_frame :
    ∀ (user category fact : String) (conf : ℚ) (ss : Option String) (now : Nat)
      (s : Store) (e : MemoryRecord) (rest : List MemoryRecord),
      s.records.filter (semanticMatches user fact) = e :: rest →
      (store_fact user category fact conf ss now s).1 = e.id ∧
      (store_fact user category fact conf ss now s).2.records =
        s.records.map (fun r =>
          if r.id = e.id then
            { r with context := .json (semanticUpdatedCtx category conf ss now),
                     last_accessed := now }
          else r) ∧
      (∀ r ∈ s.records, ∃ r' ∈ (store_fact user category fact conf ss now s).2.records,
          r'.id = r.id ∧ r'.content = r.content ∧ r'.importance = r.importance ∧
          r'.recorded_at = r.recorded_at ∧ r'.access_count = r.access_count ∧
          r'.user_id = r.user_id ∧ r'.memory_type = r.memory_type ∧
          r'.session_id = r.session_id ∧ r'.decay_factor = r.decay_factor) ∧
      (semanticId user category fact ≠ e.id →
        (store_fact user category fact conf ss now s).1 ≠ semanticId user category fact) := by
  intro user category fact conf ss now s e rest hfilter
  refine ⟨by simp [store_fact, hfilter], by simp [store_fact, hfilter], ?_, ?_⟩
  · intro r hr
    refine ⟨if r.id = e.id then
              { r with context := .json (semanticUpdatedCtx category conf ss now),
                       last_accessed := now }
            else r, ?_, ?_⟩
    · simp only [store_fact, hfilter]
      exact List.mem_map_of_mem _ hr
    · by_cases h : r.id = e.id <;> simp [h]
  · intro hne
    simp [store_fact, hfilter]
    exact fun h => hne h.symm

/-! ## Claim C4 — routing precedence -/

/-- A message containing both a document phrase and a presentation phrase. -/
def c4msg : String := "Please make slides based on my document"

/-- C4: the routing classifier is a function of the message text alone and
tests its pattern groups in the fixed order rag → presentation → visual →
feynman → advocate with default `tutor`; any message containing the document
phrase `my document` routes to `rag`, in particular one that also contains the
presentation phrase `make slides`. -/
theorem C4_routing_precedence :
    (∀ msg : String,
      (matchesAny ragPatterns (strLower msg) = true → supervisorRoute msg = "rag") ∧
      (matchesAny ragPatterns (strLower msg) = false →
       matchesAny presentationPatterns (strLower msg) = true →
       supervisorRoute msg = "presentation") ∧
      (matchesAny ragPatterns (strLower msg) = false →
       matchesAny presentationPatterns (strLower msg) = false →
       matchesAny visualPatterns (strLower msg) = true →
       supervisorRoute msg = "visual") ∧
      (matchesAny ragPatterns (strLower msg) = false →
       matchesAny presentationPatterns (strLower msg) = false →
       matchesAny visualPatterns (strLower msg) = false →
       matchesAny feynmanPatterns (strLower msg) = true →
       supervisorRoute msg = "feynman") ∧
      (matchesAny ragPatterns (strLower msg) = false →
       matchesAny presentationPatterns (strLower msg) = false →
       matchesAny visualPatterns (strLower msg) = false →
       matchesAny feynmanPatterns (strLower msg) = false →
       matchesAny advocatePatterns (strLower msg) = true →
       supervisorRoute msg = "advocate") ∧
      (matchesAny ragPatterns (strLower msg) = false →
       matchesAny presentationPatterns (strLower msg) = false →
       matchesAny visualPatterns (strLower msg) = false →
       matchesAny feynmanPatterns (strLower msg) = false →
       matchesAny advocatePatterns (strLower msg) = false →
       supervisorRoute msg = "tutor") ∧
      (strContainsSub (strLower msg) "my document" = true →
       supervisorRoute msg = "rag")) ∧
    (strContainsSub (strLower c4msg) "my document" = true ∧
     matchesAny presentationPatterns (strLower c4msg) = true ∧
     supervisorRoute c4msg = "rag") := by
  constructor
  · intro msg
    refine ⟨?_, ?_, ?_, ?_, ?_, ?_, ?_⟩
    · intro h1; simp [supervisorRoute, h1]
    · intro h1 h2; simp [supervisorRoute, h1, h2]
    · intro h1 h2 h3; simp [supervisorRoute, h1, h2, h3]
    · intro h1 h2 h3 h4; simp [supervisorRoute, h1, h2, h3, h4]
    · intro h1 h2 h3 h4 h5; simp [supervisorRoute, h1, h2, h3, h4, h5]
    · intro h1 h2 h3 h4 h5; simp [supervisorRoute, h1, h2, h3, h4, h5]
    · intro h
      have h1 : matchesAny ragPatterns (strLower msg) = true :=
        List.any_eq_true.mpr ⟨"my document", by simp [ragPatterns], h⟩
      simp [supervisorRoute, h1]
  · exact ⟨by decide, by decide, by decide⟩

/-- C4 witness: the precedence theorem applied at concrete messages — the
combined document/presentation message routes to `rag`, and a pure
presentation request routes to `presentation`. -/
theorem C4_witness :
    supervisorRoute c4msg = "rag" ∧
    supervisorRoute "make a presentation about photosynthesis" = "presentation" :=
  ⟨(C4_routing_precedence.1 c4msg).1 (by decide),
   (C4_routing_precedence.1 "make a presentation about photosynthesis").2.1
     (by decide) (by decide)⟩

/-! ## Claim C6 — episodic recall -/

/-- Membership in the filtered episodic row set implies the row predicates. -/
theorem memEpisodicFiltered {user : String} {trd : Option Nat} {now : Nat}
    {s : Store} {r : MemoryRecord} (hr : r ∈ episodicFiltered user trd now s) :
    r.user_id = user ∧ r.memory_type = "episodic" ∧
      ∀ d, trd = some d → d ≠ 0 → now - d ≤ r.recorded_at := by
  unfold episodicFiltered at hr
  cases trd with
  | none =>
    simp only [List.mem_filter, Bool.and_eq_true, decide_eq_true_eq] at hr
    exact ⟨hr.2.1, hr.2.2, fun d hd => by cases hd⟩
  | some d =>
    by_cases h0 : d = 0
    · subst h0
      simp only [ne_eq, not_true_eq_false, if_false, List.mem_filter, Bool.and_eq_true,
        decide_eq_true_eq] at hr
      refine ⟨hr.2.1, hr.2.2, ?_⟩
      intro d' hd' hne
      cases hd'
      exact absurd rfl hne
    · simp only [ne_eq, h0, not_false_eq_true, if_true, List.mem_filter, Bool.and_eq_true,
        decide_eq_true_eq] at hr
      refine ⟨hr.1.2.1, hr.1.2.2, ?_⟩
      intro d' hd' _
      cases hd'
      exact hr.2

/-- The `i`-th stored episode of the concrete recall scenario. -/
def c6rec (i : Nat) : MemoryRecord :=
  { id := "ep" ++ toString i, user_id := "u", memory_type := "episodic",
    session_id := some "sess", content := "episode " ++ toString i,
    context := .json { topic := some "sorting" }, importance := "medium",
    recorded_at := i, last_accessed := i }

/-- Five episodes with strictly increasing timestamps, stored oldest-first. -/
def c6store : Store :=
  { records := [c6rec 1, c6rec 2, c6rec 3, c6rec 4, c6rec 5] }

/-- C6: `recall_episodes` ignores its `query` argument; on a working store it
returns exactly the user's episodic rows, optionally restricted to the
`now - time_range_days` cutoff, in descending creation order, truncated to
`limit`; on the concrete five-episode store with `limit = 3` it returns the
three most recent, newest first. -/
theorem C6_recall_ordering :
    (∀ (user q q' : String) (lim : Nat) (trd : Option Nat) (now : Nat) (s : Store),
        recall_episodes user q lim trd now s = recall_episodes user q' lim trd now s) ∧
    (∀ (user q : String) (lim : Nat) (trd : Option Nat) (now : Nat) (s : Store),
        s.episodicSelectFails = false →
        recall_episodes user q lim trd now s =
          .ok ((List.insertionSort epOrder (episodicFiltered user trd now s)).take lim) ∧
        ∃ out, recall_episodes user q lim trd now s = .ok out ∧
          List.Sorted epOrder out ∧ out.length ≤ lim ∧
          ∀ r ∈ out, r.user_id = user ∧ r.memory_type = "episodic" ∧
            ∀ d, trd = some d → d ≠ 0 → now - d ≤ r.recorded_at) ∧
    recall_episodes "u" "query text is ignored" 3 none 100 c6store =
      .ok [c6rec 5, c6rec 4, c6rec 3] := by
  refine ⟨fun user q q' lim trd now s => rfl, ?_, by rfl⟩
  intro user q lim trd now s h
  have heq : recall_episodes user q lim trd now s =
      .ok ((List.insertionSort epOrder (episodicFiltered user trd now s)).take lim) := by
    simp [recall_episodes, h]
  refine ⟨heq, _, heq, ?_, ?_, ?_⟩
  · exact List.Pairwise.sublist (List.take_sublist lim _)
      (List.sorted_insertionSort epOrder _)
  · exact List.length_take_le lim _
  · intro r hr
    exact memEpisodicFiltered
      ((List.perm_insertionSort epOrder _).mem_iff.mp (List.mem_of_mem_take hr))

/-- C6 witness: the general characterization applied on the concrete
five-episode store with a nontrivial time window. -/
theorem C6_witness :
    recall_episodes "u" "any query" 2 (some 3) 5 c6store =
      .ok ((List.insertionSort epOrder (episodicFiltered "u" (some 3) 5 c6store)).take 2) :=
  ((C6_recall_ordering.2.1 "u" "any query" 2 (some 3) 5 c6store) rfl).1

/-! ## Claim C8 — working-memory read path -/

/-- C8: `get_from_context` returns the cached value exactly on a cache hit
whose expiry has not passed (`expires > now`); a hit past its expiry is
evicted and the read falls through to the persisted store; a miss falls
through directly; the fall-through returns the persisted row's `value` for
*any* stored `ttl_minutes` (no TTL re-validation), and absent when no row
exists. -/
theorem C8_working_memory_read :
    ∀ (session key : String) (now : Nat) (cache : List CacheEntry) (s : Store),
      (∀ e, cacheLookup cache key = some e → now < e.expires →
        get_from_context session key now cache s = .ok (some e.value, cache)) ∧
      (∀ e, cacheLookup cache key = some e → ¬ now < e.expires →
        get_from_context session key now cache s =
          wmFetch session key (cacheErase cache key) s) ∧
      (cacheLookup cache key = none →
        get_from_context session key now cache s = wmFetch session key cache s) ∧
      (∀ cache' : List CacheEntry, s.workingSelectFails = false →
        (∀ (r : MemoryRecord) (rest : List MemoryRecord) (c : Ctx),
          s.records.filter (fun r => decide (r.id = wmId session key)) = r :: rest →
          r.context = ContextField.json c →
          wmFetch session key cache' s = .ok (c.value, cache')) ∧
        (s.records.filter (fun r => decide (r.id = wmId session key)) = [] →
          wmFetch session key cache' s = .ok (none, cache'))) := by
  intro session key now cache s
  refine ⟨?_, ?_, ?_, ?_⟩
  · intro e he hlive; simp [get_from_context, he, hlive]
  · intro e he hdead; simp [get_from_context, he, hdead]
  · intro he; simp [get_from_context, he]
  · intro cache' hok
    constructor
    · intro r rest c hfilter hctx; simp [wmFetch, hok, hfilter, hctx, jsonLoads]
    · intro hfilter; simp [wmFetch, hok, hfilter]

/-- The persisted working-memory row of the C8 witness scenario: note its
`ttl_minutes` is 0, yet the fall-through read still returns its value. -/
def c8row : MemoryRecord :=
  { id := wmId "sess" "learning_goal", user_id := "u", memory_type := "working",
    session_id := some "sess", content := "learning_goal",
    context := .json { value := some (Val.vstr "master recursion"), ttl_minutes := some 0 },
    importance := "low", recorded_at := 4, last_accessed := 4 }

/-- The concrete working-memory store and cache of the C8 witness. -/
def c8store : Store := { records := [c8row] }

/-- C8 witness: the read theorem applied on a concrete state — a live cache
hit returns the cached value; an expired hit falls through and returns the
persisted value ignoring its `ttl_minutes = 0`. -/
theorem C8_witness :
    get_from_context "sess" "current_topic" 5
        [{ key := "current_topic", value := Val.vstr "algebra", expires := 9 }] c8store
      = .ok (some (Val.vstr "algebra"),
        [{ key := "current_topic", value := Val.vstr "algebra", expires := 9 }]) ∧
    get_from_context "sess" "learning_goal" 30
        [{ key := "learning_goal", value := Val.vstr "stale", expires := 7 }] c8store
      = .ok (some (Val.vstr "master recursion"), []) := by
  constructor
  · exact (C8_working_memory_read "sess" "current_topic" 5
      [{ key := "current_topic", value := Val.vstr "algebra", expires := 9 }] c8store).1
      _ rfl (by decide)
  · have h1 := (C8_working_memory_read "sess" "learning_goal" 30
      [{ key := "learning_goal", value := Val.vstr "stale", expires := 7 }] c8store).2.1
      _ rfl (by decide)
    have h2 := ((C8_working_memory_read "sess" "learning_goal" 30
      [{ key := "learning_goal", value := Val.vstr "stale", expires := 7 }] c8store).2.2.2
      (cacheErase [{ key := "learning_goal", value := Val.vstr "stale", expires := 7 }]
        "learning_goal") rfl).1 c8row [] _ rfl rfl
    rw [h1, h2]
    rfl

/-! ## Claim C9 — clear_session frame -/

/-- C9: `clear_session` empties the in-process cache and deletes exactly the
persisted rows of kind `working` with its session id; every episodic, semantic
or procedural row — including episodic rows with the same session id — is
kept; a failing store delete leaves the store untouched and the operation
still returns normally with the cache cleared. -/
theorem C9_clear_session_frame :
    ∀ (session : String) (cache : List CacheEntry) (s : Store),
      (clear_session session cache s).1 = [] ∧
      (s.deleteFails = false → (clear_session session cache s).2.records =
        s.records.filter (fun r =>
          decide (¬ (r.session_id = some session ∧ r.memory_type = "working")))) ∧
      (s.deleteFails = true → (clear_session session cache s).2 = s) ∧
      (∀ r ∈ s.records,
        r.memory_type = "episodic" ∨ r.memory_type = "semantic" ∨
          r.memory_type = "procedural" →
        r ∈ (clear_session session cache s).2.records) := by
  intro session cache s
  refine ⟨rfl, ?_, ?_, ?_⟩
  · intro h; simp [clear_session, h]
  · intro h; simp [clear_session, h]
  · intro r hr hkind
    by_cases h : s.deleteFails
    · simp [clear_session, h, hr]
    · simp only [Bool.not_eq_true] at h
      simp only [clear_session, h, Bool.false_eq_true, if_false, List.mem_filter,
        decide_eq_true_eq]
      refine ⟨hr, ?_⟩
      rintro ⟨-, hw⟩
      rcases hkind with hk | hk | hk <;> rw [hk] at hw <;> exact absurd hw (by decide)

/-- An episodic row of session `sess`, which `clear_session` must keep. -/
def c9episodic : MemoryRecord :=
  { id := "e-keep", user_id := "u", memory_type := "episodic",
    session_id := some "sess", content := "asked about limits",
    context := .json { topic := some "limits" }, importance := "medium",
    recorded_at := 1, last_accessed := 1 }

/-- A working row of session `sess`, which `clear_session` deletes. -/
def c9working : MemoryRecord :=
  { id := wmId "sess" "current_topic", user_id := "u", memory_type := "working",
    session_id := some "sess", content := "current_topic",
    context := .json { value := some (Val.vstr "limits"), ttl_minutes := some 120 },
    importance := "low", recorded_at := 2, last_accessed := 2 }

/-- The concrete store of the C9 witness. -/
def c9store : Store := { records := [c9episodic, c9working] }

/-- The in-process cache of the C9 witness scenario. -/
def c9cache : List CacheEntry :=
  [{ key := "current_topic", value := Val.vstr "limits", expires := 99 }]

/-- C9 witness: the frame theorem applied on a concrete store — the cache is
emptied, and the episodic row of the same session survives the delete. -/
theorem C9_witness :
    (clear_session "sess" c9cache c9store).1 = [] ∧
    c9episodic ∈ (clear_session "sess" c9cache c9store).2.records :=
  ⟨(C9_clear_session_frame "sess" c9cache c9store).1,
   (C9_clear_session_frame "sess" c9cache c9store).2.2.2 c9episodic (by decide) (Or.inl rfl)⟩

/-! ## Claim C7 — malformed stored context -/

/-- The profile loop raises `JSONDecodeError` as soon as its row list contains
a malformed context (every parse failure carries the same error). -/
theorem profileLoopMalformed :
    ∀ (l : List MemoryRecord) (p : Profile),
      (∃ r ∈ l, r.context = ContextField.malformed) →
      profileLoop l p = .error "JSONDecodeError" := by
  intro l
  induction l with
  | nil => intro p h; obtain ⟨r, hr, -⟩ := h; cases hr
  | cons r rest ih =>
    intro p h
    match hctx : r.context with
    | .malformed => simp [profileLoop, hctx, jsonLoads]
    | .json c =>
      obtain ⟨r', hr', hm⟩ := h
      rcases List.mem_cons.mp hr' with h' | h'
      · subst h'; rw [hctx] at hm; cases hm
      · simp only [profileLoop, hctx, jsonLoads]
        exact ih _ ⟨r', h', hm⟩

/-- The strategies loop raises `JSONDecodeError` as soon as its row list
contains a malformed context. -/
theorem strategiesLoopMalformed :
    ∀ (ct : Option String) (mr : ℚ) (l : List MemoryRecord) (acc : List Strategy),
      (∃ r ∈ l, r.context = ContextField.malformed) →
      strategiesLoop ct mr l acc = .error "JSONDecodeError" := by
  intro ct mr l
  induction l with
  | nil => intro acc h; obtain ⟨r, hr, -⟩ := h; cases hr
  | cons r rest ih =>
    intro acc h
    match hctx : r.context with
    | .malformed => simp [strategiesLoop, hctx, jsonLoads]
    | .json c =>
      obtain ⟨r', hr', hm⟩ := h
      rcases List.mem_cons.mp hr' with h' | h'
      · subst h'; rw [hctx] at hm; cases hm
      · simp only [strategiesLoop, hctx, jsonLoads]
        exact ih _ ⟨r', h', hm⟩

/-- C7 (corrected): a stored record with unparsable JSON context makes
`get_user_profile` and `get_effective_strategies` raise the parse error
instead of skipping the record: the aggregation aborts (the source's
`json.loads` calls are not wrapped in try/except). -/
theorem C7_malformed_context_raises :
    (∀ (user : String) (s : Store), s.semanticSelectFails = false →
      (∃ r ∈ semanticRows user s, r.context = ContextField.malformed) →
      get_user_profile user s = .error "JSONDecodeError") ∧
    (∀ (user : String) (ct : Option String) (mr : ℚ) (s : Store),
      s.proceduralSelectFails = false →
      (∃ r ∈ proceduralRows user s, r.context = ContextField.malformed) →
      get_effective_strategies user ct mr s = .error "JSONDecodeError") := by
  constructor
  · intro user s hok h
    simp only [get_user_profile, hok, Bool.false_eq_true, if_false]
    exact profileLoopMalformed _ _ h
  · intro user ct mr s hok h
    simp only [get_effective_strategies, hok, Bool.false_eq_true, if_false]
    rw [strategiesLoopMalformed ct mr _ [] h]

/-- A record of the given kind whose context column does not parse. -/
def badRecord (kind : String) : MemoryRecord :=
  { id := "bad:" ++ kind, user_id := "u", memory_type := kind,
    content := "legacy record", context := .malformed,
    importance := "low", recorded_at := 0, last_accessed := 0 }

/-- A store holding one malformed semantic and one malformed procedural row. -/
def c7store : Store := { records := [badRecord "semantic", badRecord "procedural"] }

/-- C7 counterexample: on a store whose only semantic (resp. procedural) row
has unparsable context, `get_user_profile` (resp. `get_effective_strategies`)
raises `JSONDecodeError` rather than skipping the row and returning the empty
aggregate of the remaining records. -/
theorem C7_counterexample :
    get_user_profile "u" c7store = .error "JSONDecodeError" ∧
    get_user_profile "u" c7store ≠ .ok {} ∧
    get_effective_strategies "u" none ((3:ℚ)/5) c7store = .error "JSONDecodeError" ∧
    get_effective_strategies "u" none ((3:ℚ)/5) c7store ≠ .ok [] := by
  refine ⟨rfl, ?_, rfl, ?_⟩ <;> intro h <;> cases h

/-- C7 witness: the amended theorem applied on the concrete two-row store. -/
theorem C7_amended_witness :
    get_user_profile "u" c7store = .error "JSONDecodeError" ∧
    get_effective_strategies "u" (some "explanation") ((3:ℚ)/5) c7store
      = .error "JSONDecodeError" :=
  ⟨C7_malformed_context_raises.1 "u" c7store rfl
      ⟨badRecord "semantic", by decide, rfl⟩,
   C7_malformed_context_raises.2 "u" (some "explanation") ((3:ℚ)/5) c7store rfl
      ⟨badRecord "procedural", by decide, rfl⟩⟩

/-! ## Claim C5 — strategy ranking -/

/-- On well-formed rows the strategies loop computes exactly the pure
filter-map (no row is dropped or reordered). -/
theorem strategiesLoopOk (ct : Option String) (mr : ℚ) :
    ∀ (l : List MemoryRecord) (acc : List Strategy),
      (∀ r ∈ l, r.context ≠ ContextField.malformed) →
      strategiesLoop ct mr l acc = .ok (acc ++ strategiesOf ct mr l) := by
  intro l
  induction l with
  | nil => intro acc _; simp [strategiesLoop, strategiesOf]
  | cons r rest ih =>
    intro acc h
    match hctx : r.context with
    | .malformed => exact absurd hctx (h r (List.mem_cons_self r rest))
    | .json c =>
      have hrest : ∀ r' ∈ rest, r'.context ≠ ContextField.malformed :=
        fun r' hr' => h r' (List.mem_cons_of_mem r hr')
      by_cases hk : keepStrategy ct mr c = true
      · simp [strategiesLoop, strategiesOf, hctx, jsonLoads, hk, ih _ hrest]
      · simp only [Bool.not_eq_true] at hk
        simp [strategiesLoop, strategiesOf, hctx, jsonLoads, hk, ih _ hrest]

/-- A strategy produced by the pure filter-map passes the success-rate
threshold and (when one was requested) the procedure-type filter. -/
theorem memStrategiesOf {ct : Option String} {mr : ℚ} {l : List MemoryRecord}
    {x : Strategy} (hx : x ∈ strategiesOf ct mr l) :
    mr ≤ x.success_rate ∧ ∀ t, ct = some t → x.type = t := by
  obtain ⟨r, -, hfr⟩ := List.mem_filterMap.mp hx
  split at hfr
  · cases hfr
  · next c _ =>
    split at hfr
    · next hk =>
      obtain rfl : strategyOfCtx r.content c = x := Option.some.inj hfr
      obtain ⟨hrate, htype⟩ :
          mr ≤ c.success_rate.getD 0 ∧ (ct = none ∨ c.procedure_type = ct) := by
        simpa [keepStrategy, Bool.and_eq_true, Bool.or_eq_true, decide_eq_true_eq] using hk
      refine ⟨hrate, ?_⟩
      intro t hct
      subst hct
      rcases htype with h | h
      · cases h
      · simp [strategyOfCtx, h]
    · cases hfr

/-- The ranked strategy of the high-volume moderate-success record. -/
def c5stratA : Strategy :=
  { description := "strategy A", success_rate := (13:ℚ)/20, use_count := 15,
    type := "explanation" }

/-- The ranked strategy of the low-volume high-success record. -/
def c5stratB : Strategy :=
  { description := "strategy B", success_rate := (9:ℚ)/10, use_count := 2,
    type := "explanation" }

/-- The high-volume moderate-success strategy row (score `0.65*10 = 6.5`). -/
def c5recA : MemoryRecord :=
  { id := "pA", user_id := "u", memory_type := "procedural",
    content := "strategy A",
    context := .json { procedure_type := some "explanation",
                       success_rate := some ((13:ℚ)/20), use_count := some 15 },
    importance := "medium", recorded_at := 1, last_accessed := 1 }

/-- The stored context of the low-volume high-success strategy row. -/
def c5ctxB : Ctx :=
  { procedure_type := some "explanation", success_rate := some ((9:ℚ)/10),
    use_count := some 2 }

/-- The low-volume high-success strategy row (score `0.9*2 = 1.8`). -/
def c5recB : MemoryRecord :=
  { id := "pB", user_id := "u", memory_type := "procedural",
    content := "strategy B", context := .json c5ctxB,
    importance := "high", recorded_at := 2, last_accessed := 2 }

/-- The concrete ranking store (record B stored first). -/
def c5store : Store := { records := [c5recB, c5recA] }

/-- C5: `get_effective_strategies` keeps exactly the records passing the
success-rate and type filters, sorts them descending by
`success_rate * min(use_count, 10)`, and returns at most 10; on the concrete
store, the strategy with rate 0.65 and 15 uses (score 6.5) ranks before the
one with rate 0.9 and 2 uses (score 1.8). -/
theorem C5_strategy_ranking :
    (∀ (user : String) (ct : Option String) (mr : ℚ) (s : Store),
      s.proceduralSelectFails = false →
      (∀ r ∈ proceduralRows user s, r.context ≠ ContextField.malformed) →
      get_effective_strategies user ct mr s =
        .ok ((List.insertionSort strategyOrder
          (strategiesOf ct mr (proceduralRows user s))).take 10) ∧
      ∃ out, get_effective_strategies user ct mr s = .ok out ∧
        List.Sorted strategyOrder out ∧ out.length ≤ 10 ∧
        ∀ x ∈ out, mr ≤ x.success_rate ∧ ∀ t, ct = some t → x.type = t) ∧
    get_effective_strategies "u" none ((3:ℚ)/5) c5store = .ok [c5stratA, c5stratB] := by
  constructor
  · intro user ct mr s hok hwf
    have heq : get_effective_strategies user ct mr s =
        .ok ((List.insertionSort strategyOrder
          (strategiesOf ct mr (proceduralRows user s))).take 10) := by
      simp only [get_effective_strategies, hok, Bool.false_eq_true, if_false,
        strategiesLoopOk ct mr _ [] hwf, List.nil_append]
    refine ⟨heq, _, heq, ?_, ?_, ?_⟩
    · exact List.Pairwise.sublist (List.take_sublist 10 _)
        (List.sorted_insertionSort strategyOrder _)
    · exact List.length_take_le 10 _
    · intro x hx
      exact memStrategiesOf
        ((List.perm_insertionSort strategyOrder _).mem_iff.mp (List.mem_of_mem_take hx))
  · have hloop : strategiesLoop none ((3:ℚ)/5) (proceduralRows "u" c5store) [] =
        .ok [c5stratB, c5stratA] := by
      norm_num [proceduralRows, c5store, c5recA, c5recB, c5ctxB, c5stratA, c5stratB,
        strategiesLoop, jsonLoads, keepStrategy, strategyOfCtx]
    have hsort : List.insertionSort strategyOrder [c5stratB, c5stratA] =
        [c5stratA, c5stratB] := by
      norm_num [List.insertionSort, List.orderedInsert, strategyOrder, strategyScore,
        c5stratA, c5stratB]
    have hflag : c5store.proceduralSelectFails = false := rfl
    simp only [get_effective_strategies, hflag, Bool.false_eq_true, if_false, hloop]
    rw [hsort]
    rfl

/-- C5 witness: the ranking theorem applied on the concrete two-strategy
store, with a procedure-type filter requested. -/
theorem C5_witness :
    get_effective_strategies "u" (some "explanation") ((3:ℚ)/5) c5store =
      .ok ((List.insertionSort strategyOrder
        (strategiesOf (some "explanation") ((3:ℚ)/5) (proceduralRows "u" c5store))).take 10) :=
  ((C5_strategy_ranking.1 "u" (some "explanation") ((3:ℚ)/5) c5store) rfl
    (by simp [proceduralRows, c5store, c5recA, c5recB])).1

/-! ## Claim C3 — EMA reinforcement and convergence -/

/-- Calling `record_explanation_outcome` `n` times for the same topic and
style with `was_successful = True`, starting from an empty store (call `i`
runs at time `i - 1`). -/
def iterOutcomes (user topic style : String) : Nat → Except String Store
  | 0 => .ok emptyStore
  | n+1 =>
    match iterOutcomes user topic style n with
    | .error e => .error e
    | .ok s =>
      match record_explanation_outcome user topic style true none n s with
      | .error e => .error e
      | .ok (_, s') => .ok s'

/-- The context of the single procedural record after `n` successful
outcomes. -/
def c3ctx (topic style : String) (n : Nat) : Ctx :=
  { procedure_type := some "explanation", success_rate := some 1,
    use_count := some n, topic := some topic, style := some style }

/-- The single procedural record after `n` successful outcomes. -/
def c3record (user topic style : String) (n : Nat) : MemoryRecord :=
  { id := procId user "explanation" (outcomeDesc topic style),
    user_id := user, memory_type := "procedural", session_id := none,
    content := outcomeDesc topic style,
    context := .json (c3ctx topic style n),
    importance := "high", recorded_at := 0, last_accessed := n - 1 }

/-- The stored success rate of the first procedural record matching
`description`'s dedup probe. -/
def procRateOf (user description : String) (s : Store) : Option ℚ :=
  match s.records.filter (procMatches user description) with
  | r :: _ =>
    match r.context with
    | .json c => c.success_rate
    | .malformed => none
  | [] => none

/-- The stored use count of the first procedural record matching
`description`'s dedup probe. -/
def procUseCountOf (user description : String) (s : Store) : Option Nat :=
  match s.records.filter (procMatches user description) with
  | r :: _ =>
    match r.context with
    | .json c => c.use_count
    | .malformed => none
  | [] => none

/-- The stored success rate after `k` successful outcomes for the same topic
and style. -/
def outcomeRateAt (user topic style : String) (k : Nat) : Option ℚ :=
  match iterOutcomes user topic style k with
  | .error _ => none
  | .ok s => procRateOf user (outcomeDesc topic style) s

/-- The after-`n`-outcomes record matches its own description's dedup probe. -/
theorem procMatchesC3 (user topic style : String) (n : Nat) :
    procMatches user (outcomeDesc topic style) (c3record user topic style n) = true := by
  simp [procMatches, c3record, ilikeTakeSelf]

/-- The two-field patch of `store_procedure`'s dedup branch does not change
which records match the dedup probe. -/
theorem procMatchesUpdateInvariant (user desc : String) (e : MemoryRecord)
    (nc : ContextField) (now : Nat) (x : MemoryRecord) :
    procMatches user desc
      (if x.id = e.id then { x with context := nc, last_accessed := now } else x)
      = procMatches user desc x := by
  by_cases h : x.id = e.id <;> simp [h, procMatches]

/-- The singleton after-`n`-outcomes row list survives the dedup filter. -/
theorem filterC3 (user topic style : String) (n : Nat) :
    List.filter (procMatches user (outcomeDesc topic style))
      [c3record user topic style n] = [c3record user topic style n] := by
  rw [List.filter_cons, if_pos (procMatchesC3 user topic style n)]
  rfl

/-- After `n+1` successful outcomes the store holds exactly one procedural
record, with success rate 1 and use count `n+1`. -/
theorem iterOutcomesSpec (user topic style : String) :
    ∀ n : Nat, iterOutcomes user topic style (n+1) =
      .ok { records := [c3record user topic style (n+1)] } := by
  intro n
  induction n with
  | zero =>
    norm_num [iterOutcomes, record_explanation_outcome, store_procedure, emptyStore,
      ctxOverride, c3record, c3ctx]
  | succ k ih =>
    have hctxproj : (c3record user topic style (k+1)).context =
        ContextField.json (c3ctx topic style (k+1)) := rfl
    have hcompute : record_explanation_outcome user topic style true none (k+1)
        { records := [c3record user topic style (k+1)] } =
        .ok ((c3record user topic style (k+1)).id,
          { records := [c3record user topic style (k+2)] }) := by
      simp only [record_explanation_outcome, store_procedure, filterC3, hctxproj, jsonLoads]
      norm_num [c3record, c3ctx]
    rw [show k+1+1 = (k+1)+1 from rfl]
    rw [iterOutcomes, ih]
    simp only [hcompute]

/-- On the single-record store after `n` outcomes, the stored rate reads 1. -/
theorem procRateOfC3 (user topic style : String) (n : Nat) :
    procRateOf user (outcomeDesc topic style)
      { records := [c3record user topic style n] } = some 1 := by
  have hctxproj : (c3record user topic style n).context =
      ContextField.json (c3ctx topic style n) := rfl
  simp only [procRateOf, filterC3, hctxproj]
  rfl

/-- After any positive number of successful outcomes the stored rate is 1. -/
theorem outcomeRateAtOne (user topic style : String) :
    ∀ k : Nat, 1 ≤ k → outcomeRateAt user topic style k = some 1 := by
  intro k hk
  obtain ⟨m, rfl⟩ : ∃ m, k = m + 1 := ⟨k - 1, by omega⟩
  rw [outcomeRateAt, iterOutcomesSpec]
  exact procRateOfC3 user topic style (m+1)

/-- C3: on the dedup path `store_procedure` blends
`success_rate' = 0.7*new + 0.3*old` (old defaulting to 0.5) and bumps the use
count by exactly one; and `N` successful `record_explanation_outcome` calls
for the same topic and style keep the stored success rate exactly 1 — hence
the rate sequence is monotonically non-decreasing, stays within `[0,1]`, and
sits at its limit 1 throughout. -/
theorem C3_ema_reinforcement :
    (∀ (user ptype desc : String) (rate : ℚ) (ctx : Ctx) (now : Nat) (s : Store)
        (e : MemoryRecord) (rest : List MemoryRecord) (c : Ctx),
      s.records.filter (procMatches user desc) = e :: rest →
      jsonLoads e.context = .ok c →
      ∃ s', store_procedure user ptype desc rate ctx now s = .ok (e.id, s') ∧
        procRateOf user desc s' =
          some ((7:ℚ)/10 * rate + 3/10 * c.success_rate.getD (1/2)) ∧
        procUseCountOf user desc s' = some (c.use_count.getD 0 + 1)) ∧
    (∀ (user topic style : String) (N : Nat), 1 ≤ N →
      (∀ k, 1 ≤ k → k ≤ N → outcomeRateAt user topic style k = some 1) ∧
      (∀ j k, 1 ≤ j → j ≤ k → k ≤ N →
        (outcomeRateAt user topic style j).getD 0 ≤
          (outcomeRateAt user topic style k).getD 0) ∧
      (∀ k, 1 ≤ k → k ≤ N →
        0 ≤ (outcomeRateAt user topic style k).getD 0 ∧
        (outcomeRateAt user topic style k).getD 0 ≤ 1)) := by
  constructor
  · intro user ptype desc rate ctx now s e rest c hfilter hjson
    have hc : e.context = ContextField.json c := by
      cases hctx : e.context with
      | json c' => rw [hctx] at hjson; cases hjson; rfl
      | malformed => rw [hctx] at hjson; cases hjson
    refine ⟨{ s with records := s.records.map (fun r =>
        if r.id = e.id then
          { r with
            context := ContextField.json
              { c with
                success_rate := some ((7:ℚ)/10 * rate + 3/10 * c.success_rate.getD (1/2)),
                use_count := some (c.use_count.getD 0 + 1) },
            last_accessed := now }
        else r) }, ?_, ?_, ?_⟩
    · simp only [store_procedure, hfilter, hc, jsonLoads]
    · have hpf : (procMatches user desc ∘ (fun r =>
          if r.id = e.id then
            { r with
              context := ContextField.json
                { c with
                  success_rate := some ((7:ℚ)/10 * rate + 3/10 * c.success_rate.getD (1/2)),
                  use_count := some (c.use_count.getD 0 + 1) },
              last_accessed := now }
          else r)) = procMatches user desc :=
        funext (fun x => procMatchesUpdateInvariant user desc e _ now x)
      simp only [procRateOf, List.filter_map, hpf, hfilter, List.map_cons]
      simp
    · have hpf : (procMatches user desc ∘ (fun r =>
          if r.id = e.id then
            { r with
              context := ContextField.json
                { c with
                  success_rate := some ((7:ℚ)/10 * rate + 3/10 * c.success_rate.getD (1/2)),
                  use_count := some (c.use_count.getD 0 + 1) },
              last_accessed := now }
          else r)) = procMatches user desc :=
        funext (fun x => procMatchesUpdateInvariant user desc e _ now x)
      simp only [procUseCountOf, List.filter_map, hpf, hfilter, List.map_cons]
      simp
  · intro user topic style N _
    refine ⟨fun k hk _ => outcomeRateAtOne user topic style k hk, ?_, ?_⟩
    · intro j k hj hjk hkN
      rw [outcomeRateAtOne user topic style j hj,
        outcomeRateAtOne user topic style k (le_trans hj hjk)]
    · intro k hk _
      rw [outcomeRateAtOne user topic style k hk]
      norm_num

/-- C3 witness: the EMA theorem applied on the concrete two-strategy store
(the matched record has stored rate 0.9 and use count 2, the new outcome rate
is 0, so the blended rate is `0.7*0 + 0.3*0.9` and the use count becomes 3),
and the convergence part applied at three successful outcomes. -/
theorem C3_witness :
    (∃ s', store_procedure "u" "explanation" "strategy B" 0 {} 9 c5store =
        .ok (c5recB.id, s') ∧
      procRateOf "u" "strategy B" s' =
        some ((7:ℚ)/10 * 0 + 3/10 * c5ctxB.success_rate.getD (1/2)) ∧
      procUseCountOf "u" "strategy B" s' = some (c5ctxB.use_count.getD 0 + 1)) ∧
    outcomeRateAt "u" "recursion" "socratic" 3 = some 1 :=
  ⟨C3_ema_reinforcement.1 "u" "explanation" "strategy B" 0 {} 9 c5store c5recB
      [] c5ctxB rfl rfl,
   (C3_ema_reinforcement.2 "u" "recursion" "socratic" 3 (by norm_num)).1 3
      (by norm_num) (le_refl 3)⟩

/-! ## Claim C1 — context-bundle assembly under a failing sub-fetch -/

/-- A store whose semantic select raises while its episodic and procedural
rows are present and well-formed. -/
def c1store : Store :=
  { records := [c9episodic, c5recA], semanticSelectFails := true }

/-- C1 counterexample: on a store where only the semantic select raises, the
episodic and procedural fetches succeed on their own (populated history and
strategies), yet `build_context_for_query` propagates the exception and
returns no bundle at all — the source wraps none of its sub-fetches in
try/except. -/
theorem C1_counterexample :
    build_context_for_query "u" "sess" "how do I sort a list" true true true 5 10 []
      c1store = .error "semantic select failed" ∧
    recall_episodes "u" "how do I sort a list" 5 none 10 c1store = .ok [c9episodic] ∧
    get_effective_strategies "u" none ((3:ℚ)/5) c1store = .ok [c5stratA] := by
  refine ⟨rfl, rfl, ?_⟩
  have hloop : strategiesLoop none ((3:ℚ)/5) (proceduralRows "u" c1store) [] =
      .ok [c5stratA] := by
    norm_num [proceduralRows, c1store, c9episodic, c5recA, c5stratA,
      strategiesLoop, jsonLoads, keepStrategy, strategyOfCtx]
  have hflag : c1store.proceduralSelectFails = false := rfl
  simp only [get_effective_strategies, hflag, Bool.false_eq_true, if_false, hloop]
  rfl

/-- C1 (corrected): `build_context_for_query` is not partial-failure
isolated — when the semantic store select raises (and the profile is
requested, as by default), the whole method propagates the exception to its
caller instead of returning a bundle with an empty profile. -/
theorem C1_semantic_failure_propagates :
    ∀ (user session query : String) (inclHist inclStrat : Bool)
      (maxEpisodes now : Nat) (cache : List CacheEntry) (s : Store),
      s.semanticSelectFails = true →
      build_context_for_query user session query true inclHist inclStrat
        maxEpisodes now cache s = .error "semantic select failed" := by
  intro user session query inclHist inclStrat maxEpisodes now cache s h
  simp [build_context_for_query, get_user_profile, h, Except.map]

/-- C1 witness: the propagation theorem applied on a concrete store whose
semantic select fails. -/
theorem C1_witness :
    build_context_for_query "u" "sess" "quadratics" true true true 5 0 [] c1store =
      .error "semantic select failed" :=
  C1_semantic_failure_propagates "u" "sess" "quadratics" true true 5 0 [] c1store rfl

/-! ## Claim C10 — witness material -/

/-- A pre-existing semantic record whose id differs from the hash that a
re-store of the same fact would freshly compute. -/
def c10rec : MemoryRecord :=
  { id := "legacy-0001", user_id := "u", memory_type := "semantic",
    content := "prefers visual examples",
    context := .json { category := some "preference", confidence := some ((4:ℚ)/5),
                       source_session := none },
    importance := "high", recorded_at := 7, last_accessed := 7 }

/-- The store of the C10 witness scenario. -/
def c10store : Store := { records := [c10rec] }

/-- C10 witness: the frame theorem applied on the concrete one-record store —
the returned id is the legacy record's id, not the freshly computed hash. -/
theorem C10_witness :
    (store_fact "u" "preference" "prefers visual examples" ((9:ℚ)/10) none 8
        c10store).1 = c10rec.id ∧
    (store_fact "u" "preference" "prefers visual examples" ((9:ℚ)/10) none 8
        c10store).1 ≠ semanticId "u" "preference" "prefers visual examples" :=
  ⟨(C10_dedup_frame "u" "preference" "prefers visual examples" ((9:ℚ)/10) none 8
      c10store c10rec [] rfl).1,
   (C10_dedup_frame "u" "preference" "prefers visual examples" ((9:ℚ)/10) none 8
      c10store c10rec [] rfl).2.2.2 (by decide)⟩
